import Mathlib

/-!
Shallow embedding of `src/main.py` (an asynchronous file sorter) and proofs
about it.

The program recursively walks a source directory, classifies every regular
file by its (lowercased) extension, and copies it into
`output/<bucket>/<name>`, where `<bucket>` is the extension without the dot or
the sentinel `no_extension`.

Modelling choices:
  * Paths are lists of components (`FPath`).  A filesystem state `FS` is the
    set of existing directories plus the existing regular files with their
    contents, both as lists.
  * `classify` embeds lines 37-40 of `main.py`:
    `path.suffix.lower()` followed by `extension.lstrip(".") if extension
    else "no_extension"`.  `pySuffix` embeds `pathlib.PurePath.suffix`
    (the substring of the final name from its last dot, provided the dot is
    neither the first nor the last character), `pyLower` embeds `str.lower`
    on the basic latin range (via `Char.toLower`), `pyLstripDot` embeds
    `str.lstrip(".")`.
  * `mkdirParents` embeds `AsyncPath.mkdir(parents=True, exist_ok=True)`
    (line 44): it creates the directory and every missing ancestor, succeeds
    when the directory already exists, and fails when the path or one of its
    ancestors is an existing regular file.
  * `copyPrimitive` models the external copy primitive `aioshutil.copy`
    (line 48), which the spec treats as an out-of-scope collaborator:
    read the source bytes and overwrite-write them at the destination path,
    failing when the source file is missing or the destination names an
    existing directory.
  * `copy_file` embeds lines 33-51: compute the bucket, try
    mkdir-then-copy, and catch any failure, turning it into an error log
    entry (the `except` clause, lines 50-51).  It never propagates a
    failure.
  * `read_folder` embeds lines 13-30 and `main` embeds lines 74-86.
    `walkFiles` embeds the `rglob("*")` + `is_file()` enumeration: every
    file path strictly below the source root, in filesystem order.
  * For the temporal claim about streaming, `read_folder_trace` records the
    order of observable events.  In the Python code the loop at lines 22-24
    only builds coroutine objects: none of their bodies runs until
    `asyncio.gather` at line 28 awaits them, after the `async for` loop has
    finished.  Hence every enumeration event precedes every copy event; the
    order among the copies themselves is a linearization of the concurrent
    execution, which the phase-ordering statements do not depend on.
-/

namespace FileSorter

/-- A filesystem path, as its list of components. -/
abbrev FPath := List String

/-- A filesystem state: the directories that exist and the regular files
that exist, each file carrying its content. -/
structure FS where
  dirs : List FPath
  files : List (FPath × String)
deriving DecidableEq

/-- Does `p` name an existing regular file in `fs`? -/
def isFile (fs : FS) (p : FPath) : Bool :=
  fs.files.any (fun e => e.1 == p)

/-- Does `p` name an existing directory in `fs`? -/
def isDir (fs : FS) (p : FPath) : Bool :=
  fs.dirs.contains p

/-- Python `path.exists()`: true for a directory or a regular file. -/
def existsPath (fs : FS) (p : FPath) : Bool :=
  isDir fs p || isFile fs p

/-- The content of the regular file at `p`, if any. -/
def lookupFile (fs : FS) (p : FPath) : Option String :=
  (fs.files.find? (fun e => e.1 == p)).map (fun e => e.2)

/-- Index of the last `'.'` in a list of characters: Python `str.rfind(".")`,
with `none` for Python's `-1`. -/
def rfindDot : List Char → Option Nat
  | [] => none
  | c :: cs =>
    match rfindDot cs with
    | some i => some (i + 1)
    | none => if c = '.' then some 0 else none

/-- Embedding of `pathlib.PurePath.suffix` applied to a file name: the slice
`name[i:]` where `i = name.rfind(".")`, provided `0 < i < len(name) - 1`;
otherwise the empty string. -/
def pySuffix (name : String) : String :=
  match rfindDot name.data with
  | none => ""
  | some i =>
    if 0 < i ∧ i < name.data.length - 1 then String.mk (name.data.drop i)
    else ""

/-- Embedding of Python `str.lower()` on the basic latin range. -/
def pyLower (s : String) : String :=
  String.mk (s.data.map Char.toLower)

/-- Embedding of Python `str.lstrip(".")`. -/
def pyLstripDot (s : String) : String :=
  String.mk (s.data.dropWhile (fun c => c == '.'))

/-- Lines 37-40 of `main.py`: the bucket a file name is classified into.
`extension = path.suffix.lower()` and then
`extension.lstrip(".") if extension else "no_extension"`. -/
def classify (name : String) : String :=
  let extension := pyLower (pySuffix name)
  if extension.isEmpty then "no_extension" else pyLstripDot extension

/-- The final component of a path: `path.name`. -/
def pathName (p : FPath) : String := p.getLastD ""

/-- Embedding of `mkdir(parents=True, exist_ok=True)` (line 44): create the
directory and all missing ancestors; an already existing directory is
success; a regular file at the path or at an ancestor is a failure. -/
def mkdirParents (fs : FS) (p : FPath) : Except String FS :=
  if p.inits.any (fun q => isFile fs q) then
    Except.error "FileExistsError"
  else
    Except.ok
      { fs with
        dirs := fs.dirs ++ p.inits.filter (fun q => !q.isEmpty && !fs.dirs.contains q) }

/-- Model of the external copy primitive `aioshutil.copy` (line 48): read
the source file's bytes and overwrite-write them at the destination path. -/
def copyPrimitive (fs : FS) (src dst : FPath) : Except String FS :=
  match lookupFile fs src with
  | none => Except.error "FileNotFoundError"
  | some content =>
    if isDir fs dst then Except.error "IsADirectoryError"
    else
      Except.ok
        { fs with files := (dst, content) :: fs.files.filter (fun e => !(e.1 == dst)) }

/-- A logged line, at the level used by `main.py`. -/
inductive LogEntry
  | info (msg : String)
  | warning (msg : String)
  | error (msg : String)
deriving DecidableEq

/-- Lines 33-51 of `main.py` (`copy_file`): classify, ensure the bucket
directory, copy; any failure is caught by the `except` clause and becomes an
error log entry, leaving the state as the failed step left it. -/
def copy_file (fs : FS) (path output_folder : FPath) : FS × LogEntry :=
  let target_folder := output_folder ++ [classify (pathName path)]
  match mkdirParents fs target_folder with
  | Except.error e =>
    (fs, LogEntry.error ("Error copying file " ++ pathName path ++ ": " ++ e))
  | Except.ok fs1 =>
    match copyPrimitive fs1 path (target_folder ++ [pathName path]) with
    | Except.error e =>
      (fs1, LogEntry.error ("Error copying file " ++ pathName path ++ ": " ++ e))
    | Except.ok fs2 => (fs2, LogEntry.info ("Copied " ++ pathName path))

/-- Lines 22-24 of `main.py`: `source.rglob("*")` filtered by `is_file()` —
every regular file strictly below the source root. -/
def walkFiles (fs : FS) (source : FPath) : List FPath :=
  (fs.files.map (fun e => e.1)).filter (fun p => source.isPrefixOf p && !(p == source))

/-- One linearization of `asyncio.gather` over the copy coroutines (line
28): run each file's `copy_file`, collecting one log entry per file. -/
def processFiles (fs : FS) (files : List FPath) (output : FPath) : FS × List LogEntry :=
  match files with
  | [] => (fs, [])
  | f :: rest =>
    let r1 := copy_file fs f output
    let r2 := processFiles r1.1 rest output
    (r2.1, r1.2 :: r2.2)

/-- Lines 13-30 of `main.py` (`read_folder`): validate the source exists,
enumerate the files, and either warn (no files) or run every copy. -/
def read_folder (fs : FS) (source output : FPath) : FS × List LogEntry :=
  if !(existsPath fs source) then
    (fs, [LogEntry.error "Source folder does not exist."])
  else
    let files := walkFiles fs source
    if files.isEmpty then
      (fs, [LogEntry.warning "No files found in the source folder"])
    else
      processFiles fs files output

/-- Lines 74-86 of `main.py` (`main`): create the output root (an uncaught
failure there escapes as an exception), then run `read_folder`. -/
def main (fs : FS) (source output : FPath) : Except String (FS × List LogEntry) :=
  match mkdirParents fs output with
  | Except.error e => Except.error e
  | Except.ok fs1 => Except.ok (read_folder fs1 source output)

/-- Repeated invocation of the directory-ensure step, as when many copy
tasks each call `mkdir` for the same bucket; concurrent calls interleave as
a sequence of these atomic state transitions. -/
def iterMkdir : Nat → FS → FPath → Except String FS
  | 0, fs, _ => Except.ok fs
  | n + 1, fs, p =>
    match mkdirParents fs p with
    | Except.error e => Except.error e
    | Except.ok fs1 => iterMkdir n fs1 p

/-- Observable events of one run of `read_folder`. -/
inductive Event
  | enumerated (p : FPath)
  | copyStarted (p : FPath)
  | copyFinished (p : FPath)
  | runFinished
deriving DecidableEq

/-- Is the event an enumeration event? -/
def isEnum : Event → Bool
  | Event.enumerated _ => true
  | _ => false

/-- Is the event the start of a copy task? -/
def isCopyStart : Event → Bool
  | Event.copyStarted _ => true
  | _ => false

/-- The events of running the copy coroutines (one linearization of the
`asyncio.gather` execution). -/
def copyTrace : FS → List FPath → FPath → List Event
  | _, [], _ => []
  | fs, f :: rest, out =>
    Event.copyStarted f :: Event.copyFinished f ::
      copyTrace (copy_file fs f out).1 rest out

/-- The event trace of one run of `read_folder`.  The enumeration loop at
lines 22-24 finishes before `asyncio.gather` (line 28) first awaits any copy
coroutine, so every `enumerated` event precedes every copy event. -/
def read_folder_trace (fs : FS) (source output : FPath) : List Event :=
  if !(existsPath fs source) then
    [Event.runFinished]
  else
    let files := walkFiles fs source
    if files.isEmpty then [Event.runFinished]
    else files.map Event.enumerated ++ copyTrace fs files output ++ [Event.runFinished]

/-- Does some copy begin while enumeration events are still to come?  This
is the streaming-overlap property the specification ascribes to a run. -/
def overlapsEnumeration : List Event → Bool
  | [] => false
  | Event.copyStarted _ :: rest => rest.any isEnum || overlapsEnumeration rest
  | _ :: rest => overlapsEnumeration rest

theorem toNat_ofNat_valid (n : Nat) (h : n.isValidChar) : (Char.ofNat n).toNat = n := by
  unfold Char.ofNat
  rw [dif_pos h]
  rfl

theorem toLower_ne_dot (c : Char) (h : c ≠ '.') : c.toLower ≠ '.' := by
  show (if c.toNat ≥ 65 ∧ c.toNat ≤ 90 then Char.ofNat (c.toNat + 32) else c) ≠ '.'
  split
  case isTrue hr =>
    intro hEq
    obtain ⟨hr1, hr2⟩ := hr
    have h1 : (Char.ofNat (c.toNat + 32)).toNat = c.toNat + 32 :=
      toNat_ofNat_valid _ (Or.inl (by omega))
    rw [hEq] at h1
    have h2 : ('.' : Char).toNat = 46 := by decide
    omega
  case isFalse => exact h

theorem rfindDot_eq_none {l : List Char} (h : ¬ '.' ∈ l) : rfindDot l = none := by
  induction l with
  | nil => rfl
  | cons c cs ih =>
    have hc : c ≠ '.' := by
      intro hcEq
      exact h (by simp [hcEq])
    have hcs : ¬ '.' ∈ cs := fun hm => h (List.mem_cons_of_mem _ hm)
    simp [rfindDot, ih hcs, hc]

theorem rfindDot_append (b E : List Char) (hE : ¬ '.' ∈ E) :
    rfindDot (b ++ '.' :: E) = some b.length := by
  induction b with
  | nil => simp [rfindDot, rfindDot_eq_none hE]
  | cons c cs ih => simp [rfindDot, ih]

theorem pySuffix_eq (b E : List Char) (hb : b ≠ []) (hE : E ≠ []) (hdot : ¬ '.' ∈ E) :
    pySuffix (String.mk (b ++ '.' :: E)) = String.mk ('.' :: E) := by
  have h1 : rfindDot (String.mk (b ++ '.' :: E)).data = some b.length :=
    rfindDot_append b E hdot
  have hbpos : 0 < b.length := List.length_pos.mpr hb
  have hEpos : 0 < E.length := List.length_pos.mpr hE
  simp only [pySuffix, h1]
  rw [if_pos]
  · rw [List.drop_left b ('.' :: E)]
  · constructor
    · exact hbpos
    · simp only [List.length_append, List.length_cons]
      omega

theorem mk_cons_not_isEmpty (c : Char) (l : List Char) :
    (String.mk (c :: l)).isEmpty = false := by
  cases h3 : (String.mk (c :: l)).isEmpty
  · rfl
  · have h4 := (String.isEmpty_iff _).mp h3
    have h5 : (String.mk (c :: l)).data = ("" : String).data := by rw [h4]
    simp at h5

theorem classify_ext (b E : List Char) (hb : b ≠ []) (hE : E ≠ []) (hdot : ¬ '.' ∈ E) :
    classify (String.mk (b ++ '.' :: E)) = String.mk (E.map Char.toLower) := by
  have hlow : pyLower (pySuffix (String.mk (b ++ '.' :: E)))
      = String.mk ('.' :: E.map Char.toLower) := by
    rw [pySuffix_eq b E hb hE hdot]
    simp [pyLower]
  simp only [classify, hlow, mk_cons_not_isEmpty, Bool.false_eq_true, if_false]
  unfold pyLstripDot
  cases E with
  | nil => exact absurd rfl hE
  | cons e E2 =>
    have he : e ≠ '.' := by
      intro heq
      exact hdot (by simp [heq])
    have hlo : (Char.toLower e == '.') = false := by
      simp [toLower_ne_dot e he]
    simp [List.dropWhile, hlo]

theorem classify_no_ext (name : String)
    (h : (¬ '.' ∈ name.data) ∨ (∃ rest, name.data = '.' :: rest ∧ ¬ '.' ∈ rest)) :
    classify name = "no_extension" := by
  have hsuf : pySuffix name = "" := by
    unfold pySuffix
    rcases h with h | ⟨rest, hr, hrest⟩
    · rw [rfindDot_eq_none h]
    · rw [hr]
      have h0 : rfindDot ('.' :: rest) = some 0 := by
        simp [rfindDot, rfindDot_eq_none hrest]
      rw [h0]
      simp
  have hempty : ("" : String).isEmpty = true := rfl
  simp [classify, hsuf, pyLower, hempty]

theorem classify_trailing_dot (b : List Char) :
    classify (String.mk (b ++ ['.'])) = "no_extension" := by
  have hsuf : pySuffix (String.mk (b ++ ['.'])) = "" := by
    have hfind : rfindDot (String.mk (b ++ ['.'])).data = some b.length :=
      rfindDot_append b [] (by simp)
    simp only [pySuffix, hfind]
    rw [if_neg]
    simp only [List.length_append, List.length_cons, List.length_nil]
    omega
  have hempty : ("" : String).isEmpty = true := rfl
  simp [classify, hsuf, pyLower, hempty]

theorem classify_head_ne_dot (name : String) :
    ¬ (classify name).data.head? = some '.' := by
  unfold classify
  by_cases hemp : (pyLower (pySuffix name)).isEmpty
  · simp [hemp]
  · simp only [hemp, Bool.false_eq_true, if_false]
    unfold pyLstripDot
    have hgen : ∀ l : List Char, ¬ (l.dropWhile (fun c => c == '.')).head? = some '.' := by
      intro l
      induction l with
      | nil => simp
      | cons c cs ih =>
        by_cases hc : c = '.'
        · simpa [List.dropWhile, hc] using ih
        · have hcf : (c == '.') = false := by simp [hc]
          simp [List.dropWhile, hcf]
          intro hcontra
          exact hc hcontra
    exact hgen _

/-! Helper lemmas about the filesystem operations. -/

theorem mkdir_ok_files {fs fs' : FS} {p : FPath}
    (h : mkdirParents fs p = Except.ok fs') : fs'.files = fs.files := by
  unfold mkdirParents at h
  split at h
  · cases h
  · simp only [Except.ok.injEq] at h
    subst h
    rfl

theorem mkdir_ok_dirs {fs fs' : FS} {p : FPath}
    (h : mkdirParents fs p = Except.ok fs') :
    fs'.dirs = fs.dirs ++ p.inits.filter (fun q => !q.isEmpty && !fs.dirs.contains q) := by
  unfold mkdirParents at h
  split at h
  · cases h
  · simp only [Except.ok.injEq] at h
    subst h
    rfl

theorem mkdir_ok_guard {fs fs' : FS} {p : FPath}
    (h : mkdirParents fs p = Except.ok fs') :
    p.inits.any (fun q => isFile fs q) = false := by
  unfold mkdirParents at h
  split at h
  · cases h
  · rename_i hguard
    simpa using hguard

theorem mkdir_ok_contains {fs fs' : FS} {p q : FPath}
    (h : mkdirParents fs p = Except.ok fs') (hq : q ∈ p.inits) (hqne : q ≠ []) :
    fs'.dirs.contains q = true := by
  have hmem : q ∈ fs'.dirs := by
    rw [mkdir_ok_dirs h]
    by_cases hc : fs.dirs.contains q = true
    · exact List.mem_append_left _ (List.elem_iff.mp hc)
    · refine List.mem_append_right _ (List.mem_filter.mpr ⟨hq, ?_⟩)
      simp only [Bool.and_eq_true, Bool.not_eq_true']
      constructor
      · simp [List.isEmpty_iff, hqne]
      · simpa using hc
  exact List.elem_iff.mpr hmem

theorem mkdir_idem {fs fs' : FS} {p : FPath}
    (h : mkdirParents fs p = Except.ok fs') :
    mkdirParents fs' p = Except.ok fs' := by
  unfold mkdirParents
  have hf : (fun q => isFile fs' q) = (fun q => isFile fs q) :=
    funext (fun q => by unfold isFile; rw [mkdir_ok_files h])
  rw [hf, mkdir_ok_guard h]
  simp only [Bool.false_eq_true, if_false, Except.ok.injEq]
  have hfilter : p.inits.filter (fun q => !q.isEmpty && !fs'.dirs.contains q) = [] := by
    rw [List.filter_eq_nil_iff]
    intro q hqmem
    by_cases hqne : q = []
    · simp [hqne]
    · simp only [Bool.and_eq_true, Bool.not_eq_true', not_and]
      intro _
      simp [List.elem_iff.mp (mkdir_ok_contains h hqmem hqne)]
  rw [hfilter, List.append_nil]

theorem iterMkdir_ok {fs fs' : FS} {p : FPath}
    (h : mkdirParents fs p = Except.ok fs') :
    ∀ n, iterMkdir n fs' p = Except.ok fs' := by
  intro n
  induction n with
  | zero => rfl
  | succ n ih => simp [iterMkdir, mkdir_idem h, ih]

theorem lookupFile_mkdir {fs fs' : FS} {p : FPath}
    (h : mkdirParents fs p = Except.ok fs') (q : FPath) :
    lookupFile fs' q = lookupFile fs q := by
  unfold lookupFile
  rw [mkdir_ok_files h]

theorem copyPrimitive_ok_lookup {fs fs' : FS} {src dst : FPath}
    (h : copyPrimitive fs src dst = Except.ok fs') :
    lookupFile fs' dst = lookupFile fs src ∧ lookupFile fs src ≠ none := by
  unfold copyPrimitive at h
  split at h
  · cases h
  · rename_i content hlk
    split at h
    · cases h
    · simp only [Except.ok.injEq] at h
      subst h
      constructor
      · have hlk2 : Option.map (fun e => e.2) (List.find? (fun e => e.1 == src) fs.files)
            = some content := hlk
        simp [lookupFile, List.find?, hlk2]
      · rw [hlk]
        simp

theorem copy_file_success {fs fs' : FS} {path output : FPath} {m : String}
    (h : copy_file fs path output = (fs', LogEntry.info m)) :
    lookupFile fs' ((output ++ [classify (pathName path)]) ++ [pathName path])
      = lookupFile fs path
    ∧ lookupFile fs path ≠ none := by
  simp only [copy_file] at h
  split at h
  · simp only [Prod.mk.injEq] at h
    exact LogEntry.noConfusion h.2
  · rename_i fs1 heq
    split at h
    · simp only [Prod.mk.injEq] at h
      exact LogEntry.noConfusion h.2
    · rename_i fs2 heq2
      simp only [Prod.mk.injEq, LogEntry.info.injEq] at h
      obtain ⟨rfl, -⟩ := h
      have hl := copyPrimitive_ok_lookup heq2
      rw [lookupFile_mkdir heq] at hl
      exact hl

theorem copy_file_log_shape (fs : FS) (p out : FPath) :
    (copy_file fs p out).2 = LogEntry.info ("Copied " ++ pathName p)
    ∨ ∃ e, (copy_file fs p out).2
        = LogEntry.error ("Error copying file " ++ pathName p ++ ": " ++ e) := by
  simp only [copy_file]
  split
  · rename_i e heq
    right
    exact ⟨e, rfl⟩
  · split
    · rename_i e heq
      right
      exact ⟨e, rfl⟩
    · left
      rfl

theorem processFiles_length (files : List FPath) :
    ∀ fs out, ((processFiles fs files out).2).length = files.length := by
  induction files with
  | nil => intro fs out; rfl
  | cons f rest ih => intro fs out; simp [processFiles, ih]

theorem processFiles_mem (files : List FPath) :
    ∀ fs out x, x ∈ (processFiles fs files out).2 →
      ∃ fs0 f, x = (copy_file fs0 f out).2 := by
  induction files with
  | nil =>
    intro fs out x hx
    simp [processFiles] at hx
  | cons f rest ih =>
    intro fs out x hx
    simp only [processFiles, List.mem_cons] at hx
    rcases hx with hx | hx
    · exact ⟨fs, f, hx⟩
    · exact ih _ out x hx

theorem copy_err_ne_srcmsg (p : FPath) (e : String) :
    ("Error copying file " ++ pathName p ++ ": " ++ e) ≠ "Source folder does not exist." := by
  intro h
  have h1 : ("Error copying file " ++ pathName p ++ ": " ++ e).data.head? = some 'E' := rfl
  rw [h] at h1
  have h2 : ("Source folder does not exist." : String).data.head? = some 'S' := rfl
  rw [h2] at h1
  cases h1

/-! Helper lemmas about the event-trace model. -/

theorem copyTrace_no_enum (files : List FPath) :
    ∀ fs out, (copyTrace fs files out).all (fun e => !isEnum e) = true := by
  induction files with
  | nil => intro fs out; rfl
  | cons f rest ih =>
    intro fs out
    simp only [copyTrace, List.all_cons, ih (copy_file fs f out).1 out]
    rfl

theorem overlaps_of_no_enum (l : List Event) (h : l.all (fun e => !isEnum e) = true) :
    overlapsEnumeration l = false := by
  induction l with
  | nil => rfl
  | cons a rest ih =>
    have h1 : (!isEnum a) = true ∧ rest.all (fun e => !isEnum e) = true := by simpa using h
    cases a with
    | enumerated p => simp [isEnum] at h1
    | copyStarted p =>
      have hany : rest.any isEnum = false := by
        rw [List.any_eq_false]
        intro x hx
        have hx2 := List.all_eq_true.mp h1.2 x hx
        simpa using hx2
      simp [overlapsEnumeration, hany, ih h1.2]
    | copyFinished p =>
      simp only [overlapsEnumeration]
      exact ih h1.2
    | runFinished =>
      simp only [overlapsEnumeration]
      exact ih h1.2

theorem overlaps_append (A B : List Event)
    (hA : A.all (fun e => !isCopyStart e) = true)
    (hB : overlapsEnumeration B = false) :
    overlapsEnumeration (A ++ B) = false := by
  induction A with
  | nil => simpa using hB
  | cons a A2 ih =>
    have h1 : (!isCopyStart a) = true ∧ A2.all (fun e => !isCopyStart e) = true := by
      simpa using hA
    cases a with
    | enumerated p =>
      simp only [List.cons_append, overlapsEnumeration]
      exact ih h1.2
    | copyStarted p => simp [isCopyStart] at h1
    | copyFinished p =>
      simp only [List.cons_append, overlapsEnumeration]
      exact ih h1.2
    | runFinished =>
      simp only [List.cons_append, overlapsEnumeration]
      exact ih h1.2

theorem copyTrace_mem (files : List FPath) :
    ∀ fs out f, f ∈ files →
      Event.copyStarted f ∈ copyTrace fs files out
      ∧ Event.copyFinished f ∈ copyTrace fs files out := by
  induction files with
  | nil =>
    intro fs out f hf
    cases hf
  | cons g rest ih =>
    intro fs out f hf
    rcases List.mem_cons.mp hf with hfe | hf2
    · subst hfe
      simp [copyTrace]
    · have h2 := ih (copy_file fs g out).1 out f hf2
      simp [copyTrace, h2.1, h2.2]

theorem read_folder_trace_eq (fs : FS) (source output : FPath)
    (hex : existsPath fs source = true) (hne : walkFiles fs source ≠ []) :
    read_folder_trace fs source output
      = (walkFiles fs source).map Event.enumerated
        ++ copyTrace fs (walkFiles fs source) output ++ [Event.runFinished] := by
  unfold read_folder_trace
  rw [hex]
  simp only [Bool.not_true, Bool.false_eq_true, if_false]
  rw [if_neg]
  intro hcontra
  exact hne (List.isEmpty_iff.mp hcontra)

/-! The claims. -/

/-- C1: for every source file path whose name has a non-empty extension `E`
(in any mixture of upper and lower case, after a non-empty stem), the
classification used to choose the destination subdirectory is `lowercase(E)`
with the leading dot removed — when the name has multiple dots only the
segment after the final dot is used (the stem `b` may itself contain dots) —
and a successful copy puts the file into `outputRoot/lowercase(E)/`. -/
theorem claim_C1 (b E : List Char) (fs fs' : FS) (output path : FPath) (m : String)
    (hb : b ≠ []) (hE : E ≠ []) (hdot : ¬ '.' ∈ E)
    (hname : pathName path = String.mk (b ++ '.' :: E))
    (hrun : copy_file fs path output = (fs', LogEntry.info m)) :
    classify (String.mk (b ++ '.' :: E)) = String.mk (E.map Char.toLower)
    ∧ lookupFile fs' ((output ++ [String.mk (E.map Char.toLower)]) ++ [pathName path])
        = lookupFile fs path := by
  have hcl := classify_ext b E hb hE hdot
  refine ⟨hcl, ?_⟩
  have hs := copy_file_success hrun
  have hcl2 : classify (pathName path) = String.mk (E.map Char.toLower) := by
    rw [hname]
    exact hcl
  rw [hcl2] at hs
  exact hs.1

/-- Witness for C1: the file `src/photo.JPG` is classified into the bucket
`jpg` and its successful copy lands at `out/jpg/photo.JPG`. -/
theorem claim_C1_witness :
    classify (String.mk ("photo".data ++ '.' :: "JPG".data))
      = String.mk ("JPG".data.map Char.toLower)
    ∧ lookupFile
        (copy_file (FS.mk [] [(["src", "photo.JPG"], "bytes")]) ["src", "photo.JPG"] ["out"]).1
        ((["out"] ++ [String.mk ("JPG".data.map Char.toLower)])
          ++ [pathName ["src", "photo.JPG"]])
        = lookupFile (FS.mk [] [(["src", "photo.JPG"], "bytes")]) ["src", "photo.JPG"] :=
  claim_C1 "photo".data "JPG".data
    (FS.mk [] [(["src", "photo.JPG"], "bytes")])
    (copy_file (FS.mk [] [(["src", "photo.JPG"], "bytes")]) ["src", "photo.JPG"] ["out"]).1
    ["out"] ["src", "photo.JPG"] ("Copied " ++ pathName ["src", "photo.JPG"])
    (by decide) (by decide) (by decide) (by decide) (by decide)

/-- C2: for every source file path with no extension — no dot at all, or a
dotfile such as `.gitignore` (a leading dot and no further dot) — the
classification returns the literal sentinel `no_extension`, and a successful
copy puts the file into `outputRoot/no_extension/`. -/
theorem claim_C2 (name : String) (fs fs' : FS) (output path : FPath) (m : String)
    (hshape : (¬ '.' ∈ name.data) ∨ (∃ rest, name.data = '.' :: rest ∧ ¬ '.' ∈ rest))
    (hname : pathName path = name)
    (hrun : copy_file fs path output = (fs', LogEntry.info m)) :
    classify name = "no_extension"
    ∧ lookupFile fs' ((output ++ ["no_extension"]) ++ [pathName path])
        = lookupFile fs path := by
  have hcl := classify_no_ext name hshape
  refine ⟨hcl, ?_⟩
  have hs := copy_file_success hrun
  have hcl2 : classify (pathName path) = "no_extension" := by
    rw [hname]
    exact hcl
  rw [hcl2] at hs
  exact hs.1

/-- Witness for C2: the dotfile `src/.gitignore` is classified into the
sentinel bucket and its successful copy lands at `out/no_extension/.gitignore`. -/
theorem claim_C2_witness :
    classify ".gitignore" = "no_extension"
    ∧ lookupFile
        (copy_file (FS.mk [] [(["src", ".gitignore"], "cfg")]) ["src", ".gitignore"] ["out"]).1
        ((["out"] ++ ["no_extension"]) ++ [pathName ["src", ".gitignore"]])
        = lookupFile (FS.mk [] [(["src", ".gitignore"], "cfg")]) ["src", ".gitignore"] :=
  claim_C2 ".gitignore"
    (FS.mk [] [(["src", ".gitignore"], "cfg")])
    (copy_file (FS.mk [] [(["src", ".gitignore"], "cfg")]) ["src", ".gitignore"] ["out"]).1
    ["out"] ["src", ".gitignore"] ("Copied " ++ pathName ["src", ".gitignore"])
    (Or.inr ⟨"gitignore".data, by decide, by decide⟩) (by decide) (by decide)

/-- C3: the directory-ensure step is idempotent: once it has succeeded, it
creates every missing ancestor (every non-empty prefix of the target is then
a directory), and repeating it any number of times — the sequential
linearization of concurrent invocations on this state — always succeeds
without changing the state, so the already-exists case is never an error. -/
theorem claim_C3 (fs fs' : FS) (p q : FPath) (n : Nat)
    (h : mkdirParents fs p = Except.ok fs') (hq : q ∈ p.inits) (hqne : q ≠ []) :
    fs'.dirs.contains q = true ∧ iterMkdir n fs' p = Except.ok fs' :=
  ⟨mkdir_ok_contains h hq hqne, iterMkdir_ok h n⟩

/-- Witness for C3: creating `out/txt` in an empty filesystem makes `out`
exist, and three further ensure calls all succeed with no change. -/
theorem claim_C3_witness :
    (FS.mk [["out"], ["out", "txt"]] []).dirs.contains ["out"] = true
    ∧ iterMkdir 3 (FS.mk [["out"], ["out", "txt"]] []) ["out", "txt"]
        = Except.ok (FS.mk [["out"], ["out", "txt"]] []) :=
  claim_C3 (FS.mk [] []) (FS.mk [["out"], ["out", "txt"]] []) ["out", "txt"] ["out"] 3
    rfl (by decide) (by decide)

/-- C4: every per-file error is caught inside that file's own pipeline and
converted to a logged message: a directory-creation failure for file `p` and
a copy failure for file `q` each yield an error log entry rather than a
propagated exception, and the batch still attempts every discovered file —
the run produces exactly one outcome per file regardless of failures. -/
theorem claim_C4 (fs fsq : FS) (files : List FPath) (out p q : FPath) (e1 e2 : String)
    (hp : mkdirParents fs (out ++ [classify (pathName p)]) = Except.error e1)
    (hq : mkdirParents fs (out ++ [classify (pathName q)]) = Except.ok fsq)
    (hqc : copyPrimitive fsq q ((out ++ [classify (pathName q)]) ++ [pathName q])
        = Except.error e2) :
    copy_file fs p out = (fs, LogEntry.error ("Error copying file " ++ pathName p ++ ": " ++ e1))
    ∧ copy_file fs q out
        = (fsq, LogEntry.error ("Error copying file " ++ pathName q ++ ": " ++ e2))
    ∧ ((processFiles fs files out).2).length = files.length := by
  refine ⟨?_, ?_, processFiles_length files fs out⟩
  · simp only [copy_file, hp]
  · simp only [copy_file, hq, hqc]

/-- Witness for C4: with `out/txt` blocked by a regular file, copying
`src/a.txt` fails at directory creation; copying the missing `missing/b.pdf`
fails at the copy step; both failures are logged outcomes and a two-file
batch still yields two outcomes. -/
theorem claim_C4_witness :
    copy_file (FS.mk [["out"]] [(["src", "a.txt"], "x"), (["out", "txt"], "y")])
        ["src", "a.txt"] ["out"]
      = (FS.mk [["out"]] [(["src", "a.txt"], "x"), (["out", "txt"], "y")],
         LogEntry.error ("Error copying file " ++ pathName ["src", "a.txt"]
           ++ ": " ++ "FileExistsError"))
    ∧ copy_file (FS.mk [["out"]] [(["src", "a.txt"], "x"), (["out", "txt"], "y")])
        ["missing", "b.pdf"] ["out"]
      = (FS.mk [["out"], ["out", "pdf"]] [(["src", "a.txt"], "x"), (["out", "txt"], "y")],
         LogEntry.error ("Error copying file " ++ pathName ["missing", "b.pdf"]
           ++ ": " ++ "FileNotFoundError"))
    ∧ ((processFiles (FS.mk [["out"]] [(["src", "a.txt"], "x"), (["out", "txt"], "y")])
        [["src", "a.txt"], ["missing", "b.pdf"]] ["out"]).2).length
      = [["src", "a.txt"], ["missing", "b.pdf"]].length :=
  claim_C4 (FS.mk [["out"]] [(["src", "a.txt"], "x"), (["out", "txt"], "y")])
    (FS.mk [["out"], ["out", "pdf"]] [(["src", "a.txt"], "x"), (["out", "txt"], "y")])
    [["src", "a.txt"], ["missing", "b.pdf"]] ["out"]
    ["src", "a.txt"] ["missing", "b.pdf"] "FileExistsError" "FileNotFoundError"
    rfl rfl rfl

/-- C5, counterexample: the claim says copy tasks can begin executing before
the entire source tree has been enumerated.  In a run over a source tree
with two files, the trace shows no copy start preceding any enumeration
event: the code collects every coroutine first (lines 22-24) and only then
awaits them all (line 28), so the streaming-overlap property is false. -/
theorem claim_C5_counterexample :
    overlapsEnumeration
        (read_folder_trace
          (FS.mk [["src"]] [(["src", "a.txt"], "a"), (["src", "b.txt"], "b")])
          ["src"] ["out"]) = false
    ∧ (walkFiles (FS.mk [["src"]] [(["src", "a.txt"], "a"), (["src", "b.txt"], "b")])
        ["src"]).length = 2 := by
  decide

/-- C5, amended: the walk is collected in full before any copy task
executes — in every run no copy-start event precedes a pending enumeration
event — every discovered file still gets its copy task started and
finished, and the run's completion comes after every launched task. -/
theorem claim_C5 (fs : FS) (source output f : FPath)
    (hf : f ∈ walkFiles fs source) (hex : existsPath fs source = true) :
    overlapsEnumeration (read_folder_trace fs source output) = false
    ∧ (read_folder_trace fs source output).getLast? = some Event.runFinished
    ∧ Event.copyStarted f ∈ read_folder_trace fs source output
    ∧ Event.copyFinished f ∈ read_folder_trace fs source output := by
  have hne : walkFiles fs source ≠ [] := by
    intro h0
    rw [h0] at hf
    cases hf
  have htr := read_folder_trace_eq fs source output hex hne
  have hmem := copyTrace_mem (walkFiles fs source) fs output f hf
  refine ⟨?_, ?_, ?_, ?_⟩
  · rw [htr, List.append_assoc]
    apply overlaps_append
    · rw [List.all_eq_true]
      intro x hx
      obtain ⟨pp, -, rfl⟩ := List.mem_map.mp hx
      rfl
    · apply overlaps_of_no_enum
      rw [List.all_append]
      have h1 := copyTrace_no_enum (walkFiles fs source) fs output
      rw [h1]
      rfl
  · rw [htr]
    exact List.getLast?_concat _
  · rw [htr]
    exact List.mem_append_left _ (List.mem_append_right _ hmem.1)
  · rw [htr]
    exact List.mem_append_left _ (List.mem_append_right _ hmem.2)

/-- Witness for C5 (amended): in the two-file run, the file `src/a.txt` has
its copy started and finished, the trace never overlaps copying with
enumeration, and the run finishes last. -/
theorem claim_C5_witness :
    overlapsEnumeration
        (read_folder_trace
          (FS.mk [["src"]] [(["src", "a.txt"], "a"), (["src", "b.txt"], "b")])
          ["src"] ["out"]) = false
    ∧ (read_folder_trace
          (FS.mk [["src"]] [(["src", "a.txt"], "a"), (["src", "b.txt"], "b")])
          ["src"] ["out"]).getLast? = some Event.runFinished
    ∧ Event.copyStarted ["src", "a.txt"]
        ∈ read_folder_trace
            (FS.mk [["src"]] [(["src", "a.txt"], "a"), (["src", "b.txt"], "b")])
            ["src"] ["out"]
    ∧ Event.copyFinished ["src", "a.txt"]
        ∈ read_folder_trace
            (FS.mk [["src"]] [(["src", "a.txt"], "a"), (["src", "b.txt"], "b")])
            ["src"] ["out"] :=
  claim_C5 (FS.mk [["src"]] [(["src", "a.txt"], "a"), (["src", "b.txt"], "b")])
    ["src"] ["out"] ["src", "a.txt"] (by decide) (by decide)

/-- C6: when the source directory does not exist (and is not created as a
side effect of making the output root), the run logs the source-missing
error and returns early with no file copied, yet the output root directory
is still created, because output-root creation happens before source
validation. -/
theorem claim_C6 (fs fs1 : FS) (source output : FPath)
    (hmk : mkdirParents fs output = Except.ok fs1)
    (hone : output ≠ [])
    (hsrc : existsPath fs source = false)
    (hnotin : ¬ source ∈ output.inits) :
    main fs source output = Except.ok (fs1, [LogEntry.error "Source folder does not exist."])
    ∧ isDir fs1 output = true
    ∧ fs1.files = fs.files := by
  have hiD : isDir fs1 output = true :=
    mkdir_ok_contains hmk ((List.mem_inits _ _).mpr (List.prefix_refl _)) hone
  have h1 : fs.dirs.contains source = false ∧ isFile fs source = false := by
    unfold existsPath isDir at hsrc
    simpa using hsrc
  have hex1 : existsPath fs1 source = false := by
    unfold existsPath isDir isFile
    rw [mkdir_ok_files hmk, mkdir_ok_dirs hmk]
    have h2 : (fs.dirs
        ++ output.inits.filter (fun q => !q.isEmpty && !fs.dirs.contains q)).contains source
        = false := by
      cases h3 : (fs.dirs
          ++ output.inits.filter (fun q => !q.isEmpty && !fs.dirs.contains q)).contains source
      · rfl
      · exfalso
        rcases List.mem_append.mp (List.elem_iff.mp h3) with h4 | h4
        · have h6 : fs.dirs.contains source = true := List.elem_iff.mpr h4
          exact Bool.noConfusion (h1.1.symm.trans h6)
        · exact hnotin (List.mem_filter.mp h4).1
    rw [h2]
    have h5 : isFile fs source = false := h1.2
    unfold isFile at h5
    rw [h5]
    rfl
  have hread : read_folder fs1 source output
      = (fs1, [LogEntry.error "Source folder does not exist."]) := by
    unfold read_folder
    rw [hex1]
    rfl
  refine ⟨?_, hiD, mkdir_ok_files hmk⟩
  simp only [main, hmk, hread]

/-- Witness for C6: with an empty filesystem, source `data` and output
`out`, the run creates `out`, copies nothing, and logs the error. -/
theorem claim_C6_witness :
    main (FS.mk [] []) ["data"] ["out"]
      = Except.ok (FS.mk [["out"]] [], [LogEntry.error "Source folder does not exist."])
    ∧ isDir (FS.mk [["out"]] []) ["out"] = true
    ∧ (FS.mk [["out"]] []).files = (FS.mk [] []).files :=
  claim_C6 (FS.mk [] []) (FS.mk [["out"]] []) ["data"] ["out"]
    rfl (by decide) (by decide) (by decide)

/-- C7: when the source exists but contains zero regular files, the run
completes with a warning — not an error — the state is unchanged, and no
copy task is launched. -/
theorem claim_C7 (fs : FS) (source output : FPath)
    (hex : existsPath fs source = true)
    (hempty : walkFiles fs source = []) :
    read_folder fs source output
      = (fs, [LogEntry.warning "No files found in the source folder"]) := by
  unfold read_folder
  rw [hex, hempty]
  rfl

/-- Witness for C7: an existing, empty source directory yields exactly the
warning outcome. -/
theorem claim_C7_witness :
    read_folder (FS.mk [["src"]] []) ["src"] ["out"]
      = (FS.mk [["src"]] [], [LogEntry.warning "No files found in the source folder"]) :=
  claim_C7 (FS.mk [["src"]] []) ["src"] ["out"] (by decide) (by decide)

/-- C8: a successful copy writes the source file's content at
`targetDirectory/baseName(sourcePath)`, i.e. `outputRoot/<bucket>/<name>`,
preserving the original file name. -/
theorem claim_C8 (fs fs' : FS) (path output : FPath) (m : String)
    (h : copy_file fs path output = (fs', LogEntry.info m)) :
    lookupFile fs' ((output ++ [classify (pathName path)]) ++ [pathName path])
      = lookupFile fs path
    ∧ lookupFile fs path ≠ none :=
  copy_file_success h

/-- Witness for C8: copying `docs/report.pdf` into `out` puts its content at
`out/pdf/report.pdf`. -/
theorem claim_C8_witness :
    lookupFile
        (copy_file (FS.mk [] [(["docs", "report.pdf"], "pdfbytes")])
          ["docs", "report.pdf"] ["out"]).1
        ((["out"] ++ [classify (pathName ["docs", "report.pdf"])])
          ++ [pathName ["docs", "report.pdf"]])
      = lookupFile (FS.mk [] [(["docs", "report.pdf"], "pdfbytes")]) ["docs", "report.pdf"]
    ∧ lookupFile (FS.mk [] [(["docs", "report.pdf"], "pdfbytes")]) ["docs", "report.pdf"]
        ≠ none :=
  claim_C8 (FS.mk [] [(["docs", "report.pdf"], "pdfbytes")])
    (copy_file (FS.mk [] [(["docs", "report.pdf"], "pdfbytes")])
      ["docs", "report.pdf"] ["out"]).1
    ["docs", "report.pdf"] ["out"] ("Copied " ++ pathName ["docs", "report.pdf"])
    (by decide)

/-- C9: a file name ending in a dot (such as `archive.`) yields an empty
computed extension and is classified into the sentinel bucket
`no_extension`, not into an empty-named bucket; moreover no file's bucket
name ever starts with a dot. -/
theorem claim_C9 (name : List Char) (other : String)
    (hlast : name.getLast? = some '.') :
    classify (String.mk name) = "no_extension"
    ∧ ¬ (classify other).data.head? = some '.' := by
  have h1 : name ≠ [] := by
    intro h0
    rw [h0] at hlast
    cases hlast
  constructor
  · have h3 := List.dropLast_concat_getLast h1
    have h4 : name.getLast h1 = '.' := by
      have h5 := List.getLast?_eq_getLast name h1
      rw [hlast] at h5
      exact (Option.some.inj h5).symm
    rw [h4] at h3
    rw [h3.symm]
    exact classify_trailing_dot name.dropLast
  · exact classify_head_ne_dot other

/-- Witness for C9: `archive.` goes to the sentinel bucket, and the bucket
for `b.TXT` does not start with a dot. -/
theorem claim_C9_witness :
    classify (String.mk "archive.".data) = "no_extension"
    ∧ ¬ (classify "b.TXT").data.head? = some '.' :=
  claim_C9 "archive.".data "b.TXT" (by decide)

/-- C10: source-root validation only tests existence, not directory-ness:
when the source path exists as a regular file, the run does not take the
source-not-found branch — it proceeds to the traversal step, and the
source-missing error message is never logged. -/
theorem claim_C10 (fs : FS) (source output : FPath)
    (hfile : isFile fs source = true) :
    read_folder fs source output
      = (if (walkFiles fs source).isEmpty then
           (fs, [LogEntry.warning "No files found in the source folder"])
         else processFiles fs (walkFiles fs source) output)
    ∧ ¬ LogEntry.error "Source folder does not exist."
        ∈ (read_folder fs source output).2 := by
  have hex : existsPath fs source = true := by
    unfold existsPath
    rw [hfile]
    simp
  have heq : read_folder fs source output
      = (if (walkFiles fs source).isEmpty then
           (fs, [LogEntry.warning "No files found in the source folder"])
         else processFiles fs (walkFiles fs source) output) := by
    unfold read_folder
    rw [hex]
    rfl
  refine ⟨heq, ?_⟩
  rw [heq]
  split
  · intro hmem
    have h2 := List.mem_singleton.mp hmem
    cases h2
  · intro hmem
    obtain ⟨fs0, f, hx⟩ := processFiles_mem (walkFiles fs source) fs output _ hmem
    rcases copy_file_log_shape fs0 f output with hs | ⟨e, hs⟩
    · rw [hs] at hx
      exact LogEntry.noConfusion hx
    · rw [hs] at hx
      exact copy_err_ne_srcmsg f e (LogEntry.error.inj hx).symm

/-- Witness for C10: a source path that exists as a regular file (with no
files strictly below it) reaches the traversal step and produces the
no-files warning, not the source-missing error. -/
theorem claim_C10_witness :
    read_folder (FS.mk [] [(["srcfile"], "x")]) ["srcfile"] ["out"]
      = (if (walkFiles (FS.mk [] [(["srcfile"], "x")]) ["srcfile"]).isEmpty then
           (FS.mk [] [(["srcfile"], "x")],
            [LogEntry.warning "No files found in the source folder"])
         else processFiles (FS.mk [] [(["srcfile"], "x")])
           (walkFiles (FS.mk [] [(["srcfile"], "x")]) ["srcfile"]) ["out"])
    ∧ ¬ LogEntry.error "Source folder does not exist."
        ∈ (read_folder (FS.mk [] [(["srcfile"], "x")]) ["srcfile"] ["out"]).2 :=
  claim_C10 (FS.mk [] [(["srcfile"], "x")]) ["srcfile"] ["out"] (by decide)

end FileSorter
